import Mathlib

/-!
Verification of the SQLMesh GitHub CI/CD bot core
(src/sqlmesh/integrations/github/cicd/command.py,
src/sqlmesh/integrations/github/cicd/controller.py, src/sqlmesh/core/user.py).

The Python code is shallowly embedded: enums become inductive types, the
controller's check-update methods become pure functions over an explicit
run state that records every outbound call (check-run creations and edits,
and collaborator invocations) in a trace, and the command-layer stage
functions and the run_all orchestration become functions from an
environment of collaborator outcomes to the final run state, paired with
the exception (if any) that propagates out of the run.
-/

/-- Mirrors GithubCommitStatus in controller.py. -/
inductive GithubCommitStatus
  | queued
  | in_progress
  | completed
deriving DecidableEq

/-- Mirrors GithubCommitStatus.is_in_progress. -/
def GithubCommitStatus.is_in_progress : GithubCommitStatus → Bool
  | .in_progress => true
  | _ => false

/-- Mirrors GithubCommitStatus.is_completed. -/
def GithubCommitStatus.is_completed : GithubCommitStatus → Bool
  | .completed => true
  | _ => false

/-- Mirrors GithubCommitStatus.is_queued. -/
def GithubCommitStatus.is_queued : GithubCommitStatus → Bool
  | .queued => true
  | _ => false

/-- Mirrors GithubCommitConclusion in controller.py. -/
inductive GithubCommitConclusion
  | success
  | failure
  | neutral
  | cancelled
  | timed_out
  | action_required
  | skipped
deriving DecidableEq

/-- The string value of a conclusion (the .value of the Python enum). -/
def GithubCommitConclusion.value : GithubCommitConclusion → String
  | .success => "success"
  | .failure => "failure"
  | .neutral => "neutral"
  | .cancelled => "cancelled"
  | .timed_out => "timed_out"
  | .action_required => "action_required"
  | .skipped => "skipped"

/-- Mirrors UserRole in core/user.py. -/
inductive UserRole
  | required_approver
  | bot
deriving DecidableEq

/-- Mirrors User in core/user.py (the fields relevant to the CI/CD bot). -/
structure User where
  username : String
  github_username : Option String
  slack_username : Option String
  email : Option String
  roles : List UserRole
deriving DecidableEq

/-- Mirrors User.is_required_approver: UserRole.REQUIRED_APPROVER in self.roles. -/
def User.is_required_approver (u : User) : Bool :=
  u.roles.contains UserRole.required_approver

/-- A pull-request review as consumed by GithubController._approvers:
only the review state and the reviewer display name (review.user.name,
which the underlying GitHub module may report as None) are read. -/
structure Review where
  state : String
  user_name : Option String
deriving DecidableEq

/-- Python truthiness of `a or b` for an optional string a: None and the
empty string are falsy, so both fall through to b. -/
def pyOrStr (a : Option String) (b : String) : String :=
  match a with
  | none => b
  | some s => if s == "" then b else s

/-- Python str.lower, character by character (written over the character
list so that it evaluates inside the kernel). -/
def strLower (s : String) : String :=
  String.mk (s.data.map Char.toLower)

/-- Mirrors GithubController._approvers: the display names
(review.user.name or "UNKNOWN") of reviews whose state is "approved"
(case-insensitively). The Python set is modelled as a list; only
membership is ever consumed. -/
def approvers (reviews : List Review) : List String :=
  (reviews.filter (fun r => strLower r.state == "approved")).map
    (fun r => pyOrStr r.user_name "UNKNOWN")

/-- Mirrors GithubController._required_approvers: the configured users
holding the required_approver role. -/
def required_approvers (users : List User) : List User :=
  users.filter (fun u => u.is_required_approver)

/-- Python `x in s` for an optional string x and a string set s: None is
never a member of a set of strings. -/
def optMemStr (o : Option String) (l : List String) : Bool :=
  match o with
  | none => false
  | some s => l.contains s

/-- Mirrors GithubController._required_approvers_with_approval: the
required approvers whose github_username is in the approvers set. -/
def required_approvers_with_approval (users : List User) (reviews : List Review) : List User :=
  (required_approvers users).filter
    (fun u => optMemStr u.github_username (approvers reviews))

/-- Mirrors GithubController.do_required_approval_check:
bool(self._required_approvers). -/
def do_required_approval_check (users : List User) : Bool :=
  !(required_approvers users).isEmpty

/-- Mirrors GithubController.has_required_approval: auto-pass when no
required approvers are configured, otherwise
bool(self._required_approvers_with_approval). -/
def has_required_approval (users : List User) (reviews : List Review) : Bool :=
  if (required_approvers users).length == 0 then true
  else !(required_approvers_with_approval users reviews).isEmpty

/-- The keyword-argument payload assembled by GithubController._update_check.
Optional fields model the presence or absence of the corresponding key in
the Python kwargs dict; started_at and completed_at record whether the
timestamp keys are present. -/
structure CheckKwargs where
  name : Option String
  head_sha : Option String
  status : GithubCommitStatus
  started_at : Bool
  completed_at : Bool
  conclusion : Option GithubCommitConclusion
  output_title : String
  output_summary : String
deriving DecidableEq

/-- The collaborator invocations the command layer performs, one per stage
action, plus the PR-comment update issued on a successful PR environment
sync. -/
inductive ActionKind
  | runTestsAction
  | approvalFetch
  | prEnvApply
  | prodDeployApply
  | commentUpdate
deriving DecidableEq

/-- One outbound call recorded during a run: a check-run creation
(repo.create_check_run), an edit of an existing check run
(check_run.edit), or a collaborator invocation. On an edit the first
field records which logical check the cached handle belongs to; the
payload actually sent is the kwargs field. -/
inductive Event
  | create (name : String) (kwargs : CheckKwargs) (handle : Nat)
  | edit (name : String) (handle : Nat) (kwargs : CheckKwargs)
  | action (kind : ActionKind)
deriving DecidableEq

/-- The state threaded through one orchestration run: the commit sha of
the pull request head, the controller's _check_run_mapping cache (check
name to check-run handle), a counter for fresh handles, and the trace of
outbound calls made so far. -/
structure RunState where
  head_sha : String
  check_run_mapping : List (String × Nat)
  nextHandle : Nat
  trace : List Event
deriving DecidableEq

/-- Dictionary lookup in _check_run_mapping. -/
def lookupHandle : List (String × Nat) → String → Option Nat
  | [], _ => none
  | (k, v) :: rest, n => if k == n then some v else lookupHandle rest n

/-- The kwargs dict built by _update_check before the create-or-edit
decision: name, head_sha and status always present, started_at present
iff the status is in_progress, completed_at present iff completed,
conclusion present iff one was passed, output always present with
summary defaulting to the title (Python `summary or title`). -/
def buildKwargs (s : RunState) (name : String) (status : GithubCommitStatus)
    (title : String) (conclusion : Option GithubCommitConclusion)
    (summary : Option String) : CheckKwargs :=
  { name := some name
    head_sha := some s.head_sha
    status := status
    started_at := status.is_in_progress
    completed_at := status.is_completed
    conclusion := conclusion
    output_title := title
    output_summary := pyOrStr summary title }

/-- The kwargs filtering applied on the edit path of _update_check:
the name, head_sha and started_at keys are dropped. -/
def stripImmutable (k : CheckKwargs) : CheckKwargs :=
  { k with name := none, head_sha := none, started_at := false }

/-- Mirrors GithubController._update_check: build the kwargs; if the
check name is already in _check_run_mapping, edit the cached check run
with the immutable keys stripped, otherwise create a new check run and
cache its handle. -/
def updateCheck (s : RunState) (name : String) (status : GithubCommitStatus)
    (title : String) (conclusion : Option GithubCommitConclusion)
    (summary : Option String) : RunState :=
  let kwargs := buildKwargs s name status title conclusion summary
  match lookupHandle s.check_run_mapping name with
  | some h => { s with trace := s.trace ++ [Event.edit name h (stripImmutable kwargs)] }
  | none =>
    { s with
      check_run_mapping := s.check_run_mapping ++ [(name, s.nextHandle)]
      nextHandle := s.nextHandle + 1
      trace := s.trace ++ [Event.create name kwargs s.nextHandle] }

def testCheckName : String := "SQLMesh - Run Unit Tests"

def approvalCheckName : String := "SQLMesh - Has Required Approval"

def prEnvCheckName : String := "SQLMesh - PR Environment Synced"

def prodCheckName : String := "SQLMesh - Prod Environment Synced"

/-- The outcomes a collaborator call can have when it raises: the
structured PlanError caught by some stages, or any other exception. -/
inductive PyExn
  | planError
  | otherError
deriving DecidableEq

/-- The collaborator outcomes and run inputs an orchestration run reads:
the configured users and the PR reviews (feeding the approval gate), a
flag per fallible collaborator call saying whether it raises, and the
opaque text inputs (commit sha, PR environment name, console outputs)
that end up inside check payloads. -/
structure Env where
  users : List User
  reviews : List Review
  testsRaise : Bool
  approvalRaises : Bool
  prEnvOutcome : Option PyExn
  deployOutcome : Option PyExn
  head_sha : String
  prEnvironmentName : String
  testSummaryText : String
  prSuccessSummaryText : String
deriving DecidableEq

/-- Text of the unexpected-conclusion fallback summaries. -/
def conclusionValueText (c : Option GithubCommitConclusion) : String :=
  match c with
  | some cc => cc.value
  | none => ""

/-- Mirrors GithubController.update_test_check: fixed titles for queued
and in_progress (also used as the summary); on completed the title comes
from the conclusion (Tests Passed for success, Tests Failed otherwise)
and the summary is the captured console output (an opaque env input
here). -/
def update_test_check (env : Env) (s : RunState) (status : GithubCommitStatus)
    (conclusion : Option GithubCommitConclusion) : RunState :=
  match status with
  | .in_progress =>
    updateCheck s testCheckName status "Running Tests" conclusion (some "Running Tests")
  | .queued =>
    updateCheck s testCheckName status "Waiting to Run Tests" conclusion
      (some "Waiting to Run Tests")
  | .completed =>
    -- the source asserts a conclusion is present on this path
    let title :=
      match conclusion with
      | some .success => "Tests Passed"
      | _ => "Tests Failed"
    updateCheck s testCheckName status title conclusion (some env.testSummaryText)

/-- Python `user.github_username or user.username`. -/
def ghUserOrName (u : User) : String :=
  pyOrStr u.github_username u.username

/-- Mirrors GithubController.update_required_approval_check. -/
def update_required_approval_check (env : Env) (s : RunState)
    (status : GithubCommitStatus) (conclusion : Option GithubCommitConclusion) : RunState :=
  let summary := ":information_source: List of possible required approvers: " ++
    String.intercalate ", " ((required_approvers env.users).map ghUserOrName)
  match status with
  | .in_progress =>
    updateCheck s approvalCheckName status "Checking if we have required Approvers"
      conclusion (some summary)
  | .queued =>
    updateCheck s approvalCheckName status
      "Waiting to Check if we have required Approvers" conclusion (some summary)
  | .completed =>
    -- the source asserts a conclusion is present on this path
    let title :=
      match conclusion with
      | some .success => "Obtained approval from required approvers: " ++
          String.intercalate ", "
            ((required_approvers_with_approval env.users env.reviews).map ghUserOrName)
      | _ => "Need a Required Approval"
    updateCheck s approvalCheckName status title conclusion (some summary)

/-- Mirrors GithubController.update_pr_environment_check. The success
summary (affected-models table plus prod plan preview) is built from plan
data external to the core, so it is an opaque env input; on that path the
source also updates the SQLMesh PR comment, recorded as a commentUpdate
action. -/
def update_pr_environment_check (env : Env) (s : RunState)
    (status : GithubCommitStatus) (conclusion : Option GithubCommitConclusion) : RunState :=
  let title := "Target Virtual Data Environment: " ++ env.prEnvironmentName
  match status with
  | .queued =>
    updateCheck s prEnvCheckName status title conclusion
      (some (":pause_button: Waiting to create or update PR Environment `" ++
        env.prEnvironmentName ++ "`"))
  | .in_progress =>
    updateCheck s prEnvCheckName status title conclusion
      (some (":rocket: Creating or Updating PR Environment `" ++
        env.prEnvironmentName ++ "`"))
  | .completed =>
    -- the source asserts a conclusion is present on this path
    match conclusion with
    | some .success =>
      let s := updateCheck s prEnvCheckName status title conclusion
        (some env.prSuccessSummaryText)
      { s with trace := s.trace ++ [Event.action ActionKind.commentUpdate] }
    | c =>
      let summary :=
        match c with
        | some .skipped => ":next_track_button: Skipped creating or updating PR Environment `" ++
            env.prEnvironmentName ++ "` since a prior stage failed"
        | some .failure => ":x: Failed to create or update PR Environment `" ++
            env.prEnvironmentName ++
            "`. There are likely uncateogrized changes. Run `plan` to apply these changes."
        | some .cancelled => ":stop_sign: Cancelled creating or updating PR Environment `" ++
            env.prEnvironmentName ++ "`"
        | some .action_required => ":warning: Action Required to create or update PR Environment `" ++
            env.prEnvironmentName ++
            "`. There are likely uncateogrized changes. Run `plan` to apply these changes."
        | _ => ":interrobang: Got an unexpected conclusion: " ++ conclusionValueText c
      updateCheck s prEnvCheckName status title conclusion (some summary)

/-- Mirrors GithubController.update_prod_environment_check (no summary is
passed, so _update_check defaults the output summary to the title). -/
def update_prod_environment_check (env : Env) (s : RunState)
    (status : GithubCommitStatus) (conclusion : Option GithubCommitConclusion) : RunState :=
  let _ := env
  match status with
  | .in_progress =>
    updateCheck s prodCheckName status "Deploying to Prod" conclusion none
  | .queued =>
    updateCheck s prodCheckName status "Waiting to see if we can deploy to prod"
      conclusion none
  | .completed =>
    -- the source asserts a conclusion is present on this path
    let title :=
      match conclusion with
      | some .success => ":ship: Deployed to Prod"
      | some .cancelled => ":stop_sign: Cancelled deploying to prod"
      | some .skipped => ":next_track_button: Skipped deploying to prod since dependencies were not met"
      | some .failure => ":x: Failed to deploy to prod"
      | c => ":interrobang: Got an unexpected conclusion: " ++ conclusionValueText c
    updateCheck s prodCheckName status title conclusion none

/-- The result a command-layer stage hands back to run_all: either the
boolean it returns, or the exception it lets propagate. -/
inductive StageRes
  | ok (passed : Bool)
  | exn (e : PyExn)
deriving DecidableEq

/-- Record a collaborator invocation in the trace. -/
def pushAction (s : RunState) (a : ActionKind) : RunState :=
  { s with trace := s.trace ++ [Event.action a] }

/-- Mirrors _run_tests in command.py: mark the test check in_progress,
invoke controller.run_tests(), and on any exception at all (the source
catches Exception) mark the check Failure and return False; otherwise
mark it Success and return True. This stage never lets an exception
propagate. -/
def run_tests_stage (env : Env) (s : RunState) : RunState × Bool :=
  let s := update_test_check env s .in_progress none
  let s := pushAction s .runTestsAction
  if env.testsRaise then
    (update_test_check env s .completed (some .failure), false)
  else
    (update_test_check env s .completed (some .success), true)

/-- Mirrors _check_required_approvers in command.py: mark the approval
check in_progress, evaluate controller.has_required_approval (which
fetches the PR reviews and may raise; nothing is caught here), then mark
Success or Neutral accordingly. -/
def check_required_approvers_stage (env : Env) (s : RunState) : RunState × StageRes :=
  let s := update_required_approval_check env s .in_progress none
  let s := pushAction s .approvalFetch
  if env.approvalRaises then
    (s, StageRes.exn PyExn.otherError)
  else if has_required_approval env.users env.reviews then
    (update_required_approval_check env s .completed (some .success), StageRes.ok true)
  else
    (update_required_approval_check env s .completed (some .neutral), StageRes.ok false)

/-- Mirrors _update_pr_environment in command.py: mark the PR environment
check in_progress, invoke controller.update_pr_environment(); a PlanError
is caught and reported as ActionRequired (returning False), success is
reported as Success (returning True), and any other exception
propagates uncaught. -/
def update_pr_environment_stage (env : Env) (s : RunState) : RunState × StageRes :=
  let s := update_pr_environment_check env s .in_progress none
  let s := pushAction s .prEnvApply
  match env.prEnvOutcome with
  | none => (update_pr_environment_check env s .completed (some .success), StageRes.ok true)
  | some .planError =>
    (update_pr_environment_check env s .completed (some .action_required), StageRes.ok false)
  | some .otherError => (s, StageRes.exn PyExn.otherError)

/-- Mirrors _deploy_production in command.py: mark the prod check
in_progress, invoke controller.deploy_to_prod(); a PlanError is caught
and reported as ActionRequired (returning False), success as Success
(returning True), and any other exception propagates uncaught. -/
def deploy_production_stage (env : Env) (s : RunState) : RunState × StageRes :=
  let s := update_prod_environment_check env s .in_progress none
  let s := pushAction s .prodDeployApply
  match env.deployOutcome with
  | none => (update_prod_environment_check env s .completed (some .success), StageRes.ok true)
  | some .planError =>
    (update_prod_environment_check env s .completed (some .action_required), StageRes.ok false)
  | some .otherError => (s, StageRes.exn PyExn.otherError)

/-- The state at the start of a run: an empty check-run cache and an
empty trace. -/
def initRunState (env : Env) : RunState :=
  { head_sha := env.head_sha, check_run_mapping := [], nextHandle := 0, trace := [] }

/-- Mirrors run_all in command.py: queue the PR environment, prod
environment and test checks; run the tests stage (which swallows its
exceptions); if required approvers are configured, queue the approval
check and run the approval stage; run the PR environment stage; then run
the deploy stage only when all three predecessors passed, otherwise mark
the prod check Completed with conclusion Skipped. The second component is
the exception propagating out of run_all, if any. -/
def run_all (env : Env) : RunState × Option PyExn :=
  let s := initRunState env
  let s := update_pr_environment_check env s .queued none
  let s := update_prod_environment_check env s .queued none
  let s := update_test_check env s .queued none
  let tested := run_tests_stage env s
  let tests_passed := tested.2
  let approvalStep :=
    if do_required_approval_check env.users then
      check_required_approvers_stage env
        (update_required_approval_check env tested.1 .queued none)
    else (tested.1, StageRes.ok true)
  match approvalStep with
  | (s, StageRes.exn e) => (s, some e)
  | (s, StageRes.ok has_approval) =>
    match update_pr_environment_stage env s with
    | (s, StageRes.exn e) => (s, some e)
    | (s, StageRes.ok pr_ok) =>
      if tests_passed && has_approval && pr_ok then
        match deploy_production_stage env s with
        | (s, StageRes.exn e) => (s, some e)
        | (s, StageRes.ok _) => (s, none)
      else
        (update_prod_environment_check env s .completed (some .skipped), none)

/-- The process exit code of the run-all subcommand: the command function
discards every stage result, so click exits 0 unless an exception
escaped run_all (click then exits non-zero). -/
def run_all_exit_code (env : Env) : Nat :=
  match (run_all env).2 with
  | some _ => 1
  | none => 0

/-- The process exit code of the run-tests subcommand: _run_tests catches
every exception and run_tests discards its boolean result, so the command
always exits 0. -/
def run_tests_command_exit_code (env : Env) : Nat :=
  let _ := run_tests_stage env (initRunState env)
  0

/-- The kwargs payload of an event when the event is a check update (a
creation or an edit) for the given check name. -/
def kwargsOfUpdateFor (name : String) : Event → Option CheckKwargs
  | .create n k _ => if n == name then some k else none
  | .edit n _ k => if n == name then some k else none
  | .action _ => none

/-- The payloads of all updates sent for a given check name, in order. -/
def updatesFor (name : String) (tr : List Event) : List CheckKwargs :=
  tr.filterMap (kwargsOfUpdateFor name)

/-- The last element of a list (recursively, so that it unfolds well). -/
def lastOption {α : Type} : List α → Option α
  | [] => none
  | [a] => some a
  | _ :: b :: rest => lastOption (b :: rest)

/-- The payload of the last update sent for a given check name. -/
def finalKwargs (name : String) (tr : List Event) : Option CheckKwargs :=
  lastOption (updatesFor name tr)

/-- The status carried by the last update sent for a check. -/
def finalStatus (name : String) (tr : List Event) : Option GithubCommitStatus :=
  (finalKwargs name tr).map (fun k => k.status)

/-- The conclusion carried by the last update sent for a check. -/
def finalConclusion (name : String) (tr : List Event) : Option GithubCommitConclusion :=
  (finalKwargs name tr).bind (fun k => k.conclusion)

/-- Whether an event is any collaborator invocation. -/
def isAnyAction : Event → Bool
  | .action _ => true
  | _ => false

/-- Whether an event is the given collaborator invocation. -/
def isActionOf (a : ActionKind) : Event → Bool
  | .action b => a == b
  | _ => false

/-- Whether the given collaborator was invoked during the trace. -/
def actionInvoked (a : ActionKind) (tr : List Event) : Bool :=
  tr.any (isActionOf a)

/-- Whether an event is a check-run creation for the given name. -/
def isCreateFor (name : String) : Event → Bool
  | .create n _ _ => n == name
  | _ => false

/-- Whether an event is an edit of the check run cached for the given name. -/
def isEditFor (name : String) : Event → Bool
  | .edit n _ _ => n == name
  | _ => false

/-- Whether an event is a check update (create or edit) for the name. -/
def isUpdateFor (name : String) (e : Event) : Bool :=
  isCreateFor name e || isEditFor name e

/-- Whether an event is an update for the name carrying status queued. -/
def isQueuedUpdateFor (name : String) : Event → Bool
  | .create n k _ => n == name && k.status == GithubCommitStatus.queued
  | .edit n _ k => n == name && k.status == GithubCommitStatus.queued
  | .action _ => false

/-- Number of check-run creations for a given name in a trace. -/
def countCreatesFor (name : String) (tr : List Event) : Nat :=
  (tr.filter (isCreateFor name)).length

/-- True when some event satisfying p occurs strictly before the first
event satisfying q (vacuously true when no event satisfies q). -/
def precedesAllB (p q : Event → Bool) : List Event → Bool
  | [] => true
  | e :: rest => if q e then false else if p e then true else precedesAllB p q rest

/-- The run-level conclusion: every participating check ended with
conclusion Success (the approval check participates only when required
approvers are configured). -/
def overallSuccessB (users : List User) (tr : List Event) : Bool :=
  (finalConclusion testCheckName tr == some GithubCommitConclusion.success) &&
  (finalConclusion prEnvCheckName tr == some GithubCommitConclusion.success) &&
  (finalConclusion prodCheckName tr == some GithubCommitConclusion.success) &&
  (!do_required_approval_check users ||
    (finalConclusion approvalCheckName tr == some GithubCommitConclusion.success))

lemma bnot_isEmpty_iff {α : Type} (l : List α) : ((!l.isEmpty) = true ↔ ∃ x, x ∈ l) := by
  cases l <;> simp

lemma mem_required_approvers_with_approval_iff (users : List User) (reviews : List Review)
    (u : User) :
    u ∈ required_approvers_with_approval users reviews ↔
      u ∈ required_approvers users ∧ optMemStr u.github_username (approvers reviews) = true := by
  simp [required_approvers_with_approval, List.mem_filter]

lemma optMemStr_eq_true_iff (o : Option String) (l : List String) :
    optMemStr o l = true ↔ ∃ g, o = some g ∧ g ∈ l := by
  cases o with
  | none => simp [optMemStr]
  | some s => simp [optMemStr, List.elem_iff]

/-- C3: the approval gate auto-passes when no required approvers are
configured, and otherwise passes iff at least one configured required
approver is (by github_username) in the approvers set: the any-one
policy, not unanimous consent. -/
theorem has_required_approval_any_one_policy (users : List User) (reviews : List Review) :
    (required_approvers users = [] → has_required_approval users reviews = true) ∧
    (required_approvers users ≠ [] →
      (has_required_approval users reviews = true ↔
        ∃ u ∈ required_approvers users,
          optMemStr u.github_username (approvers reviews) = true)) := by
  constructor
  · intro h
    simp [has_required_approval, h]
  · intro h
    have hlen : ((required_approvers users).length == 0) = false := by
      simpa [List.length_eq_zero] using h
    rw [has_required_approval, hlen]
    simp only [Bool.false_eq_true, if_false]
    rw [bnot_isEmpty_iff]
    constructor
    · rintro ⟨u, hu⟩
      rw [mem_required_approvers_with_approval_iff] at hu
      exact ⟨u, hu.1, hu.2⟩
    · rintro ⟨u, hu, hp⟩
      exact ⟨u, (mem_required_approvers_with_approval_iff users reviews u).2 ⟨hu, hp⟩⟩

def aliceApprover : User :=
  { username := "alice", github_username := some "alice",
    slack_username := none, email := none, roles := [UserRole.required_approver] }

def bobNoGithub : User :=
  { username := "bob", github_username := none,
    slack_username := none, email := none, roles := [UserRole.required_approver] }

def aliceReview : Review := { state := "APPROVED", user_name := some "alice" }

/-- Witness for C3: with one configured required approver and one
approved review naming them, the gate characterization is established at
a concrete input. -/
theorem has_required_approval_any_one_policy_witness :
    has_required_approval [aliceApprover] [aliceReview] = true ↔
      ∃ u ∈ required_approvers [aliceApprover],
        optMemStr u.github_username (approvers [aliceReview]) = true :=
  (has_required_approval_any_one_policy [aliceApprover] [aliceReview]).2 (by decide)

/-- C9: the approval gate matches each required approver by
github_username against the display names of approving reviews
(review.user.name, with "UNKNOWN" substituted when the name is absent),
so a required approver whose github_username is unset never counts as
having approved. -/
theorem approval_matching_by_github_username (users : List User) (reviews : List Review)
    (u : User) :
    (u ∈ required_approvers_with_approval users reviews ↔
      u ∈ required_approvers users ∧
        ∃ g, u.github_username = some g ∧ g ∈ approvers reviews) ∧
    (∀ n, n ∈ approvers reviews ↔
      ∃ r ∈ reviews, strLower r.state = "approved" ∧ pyOrStr r.user_name "UNKNOWN" = n) ∧
    (u.github_username = none → u ∉ required_approvers_with_approval users reviews) := by
  refine ⟨?_, ?_, ?_⟩
  · rw [mem_required_approvers_with_approval_iff, optMemStr_eq_true_iff]
  · intro n
    simp only [approvers, List.mem_map, List.mem_filter]
    constructor
    · rintro ⟨r, ⟨hr, hs⟩, hn⟩
      exact ⟨r, hr, by simpa using hs, hn⟩
    · rintro ⟨r, hr, hs, hn⟩
      exact ⟨r, ⟨hr, by simpa using hs⟩, hn⟩
  · intro hnone hmem
    rw [mem_required_approvers_with_approval_iff] at hmem
    rw [optMemStr_eq_true_iff] at hmem
    rcases hmem.2 with ⟨g, hg, _⟩
    rw [hnone] at hg
    cases hg

/-- Witness for C9: a required approver with github_username unset does
not count as approving even when an approved review has the UNKNOWN
display name. -/
theorem approval_matching_by_github_username_witness :
    bobNoGithub ∉ required_approvers_with_approval [bobNoGithub]
      [{ state := "approved", user_name := none }] :=
  (approval_matching_by_github_username [bobNoGithub]
    [{ state := "approved", user_name := none }] bobNoGithub).2.2 rfl

def envTestsFailApprover : Env :=
  { users := [aliceApprover], reviews := [], testsRaise := true, approvalRaises := false,
    prEnvOutcome := none, deployOutcome := none, head_sha := "headsha",
    prEnvironmentName := "repo_12", testSummaryText := "test output",
    prSuccessSummaryText := "affected models table" }

/-- Counterexample to C1: in a run where the Tests stage fails (the test
check ends with conclusion Failure), the RequiredApproval collaborator
(the review fetch behind has_required_approval) and the PrEnvironmentSync
collaborator (update_pr_environment) are both still invoked by run_all,
contrary to the claimed skip propagation. -/
theorem run_all_tests_fail_still_invokes_downstream :
    finalConclusion testCheckName (run_all envTestsFailApprover).1.trace =
        some GithubCommitConclusion.failure ∧
      actionInvoked ActionKind.approvalFetch (run_all envTestsFailApprover).1.trace = true ∧
      actionInvoked ActionKind.prEnvApply (run_all envTestsFailApprover).1.trace = true := by
  decide

def envTestsFailPrEnvFatal : Env :=
  { users := [], reviews := [], testsRaise := true, approvalRaises := false,
    prEnvOutcome := some PyExn.otherError, deployOutcome := none, head_sha := "headsha",
    prEnvironmentName := "repo_12", testSummaryText := "test output",
    prSuccessSummaryText := "affected models table" }

/-- Counterexample to C2: when the Tests predecessor has failed but the
PR environment sync then raises a non-PlanError, run_all aborts before
the skip branch, so the ProdDeploy check is left Queued rather than being
marked Completed with conclusion Skipped (the deploy collaborator is
indeed never invoked). -/
theorem run_all_predecessor_failed_prod_not_marked_skipped :
    finalConclusion testCheckName (run_all envTestsFailPrEnvFatal).1.trace =
        some GithubCommitConclusion.failure ∧
      actionInvoked ActionKind.prodDeployApply (run_all envTestsFailPrEnvFatal).1.trace =
        false ∧
      finalStatus prodCheckName (run_all envTestsFailPrEnvFatal).1.trace =
        some GithubCommitStatus.queued := by
  decide

def envPrEnvFatal : Env :=
  { users := [], reviews := [], testsRaise := false, approvalRaises := false,
    prEnvOutcome := some PyExn.otherError, deployOutcome := none, head_sha := "headsha",
    prEnvironmentName := "repo_12", testSummaryText := "test output",
    prSuccessSummaryText := "affected models table" }

/-- Counterexample to C5: when the PR environment sync raises a
non-PlanError, run_all re-raises it without any best-effort reporting:
the PrEnvironmentSync check is left InProgress (not Failure or
ActionRequired) and the downstream ProdDeploy check is left Queued (not
Skipped), so checks do end the run in non-terminal states. -/
theorem run_all_fatal_error_leaves_nonterminal_checks :
    (run_all envPrEnvFatal).2 = some PyExn.otherError ∧
      finalStatus prEnvCheckName (run_all envPrEnvFatal).1.trace =
        some GithubCommitStatus.in_progress ∧
      finalStatus prodCheckName (run_all envPrEnvFatal).1.trace =
        some GithubCommitStatus.queued := by
  decide

def envTestsFailOnly : Env :=
  { users := [], reviews := [], testsRaise := true, approvalRaises := false,
    prEnvOutcome := none, deployOutcome := none, head_sha := "headsha",
    prEnvironmentName := "repo_12", testSummaryText := "test output",
    prSuccessSummaryText := "affected models table" }

/-- Counterexample to C7: a run whose Tests stage fails (so the
run-level conclusion is not overall success: the test check ends
Failure) still exits with code 0, because every command function
discards the stage results and no exception escapes. -/
theorem run_all_exit_code_zero_despite_failure :
    run_all_exit_code envTestsFailOnly = 0 ∧
      overallSuccessB envTestsFailOnly.users (run_all envTestsFailOnly).1.trace = false := by
  decide

def envAllGreenApprover : Env :=
  { users := [aliceApprover], reviews := [aliceReview], testsRaise := false,
    approvalRaises := false, prEnvOutcome := none, deployOutcome := none,
    head_sha := "headsha", prEnvironmentName := "repo_12", testSummaryText := "test output",
    prSuccessSummaryText := "affected models table" }

/-- Counterexample to C8: when required approvers are configured, the
RequiredApproval check participates in the run but is queued only after
the Tests collaborator action has already run, so not every
participating stage is marked Queued before the first collaborator
action starts. -/
theorem run_all_approval_queued_after_tests_action :
    do_required_approval_check envAllGreenApprover.users = true ∧
      precedesAllB (isQueuedUpdateFor approvalCheckName) isAnyAction
        (run_all envAllGreenApprover).1.trace = false := by
  decide

def emptyRunState (sha : String) : RunState :=
  { head_sha := sha, check_run_mapping := [], nextHandle := 0, trace := [] }

def c4Step1 : RunState :=
  updateCheck (emptyRunState "headsha") "X" .completed "done"
    (some GithubCommitConclusion.success) none

def c4Step2 : RunState := updateCheck c4Step1 "X" .in_progress "again" none none

/-- Counterexample to C4: _update_check performs no transition
validation at all. After a check has been recorded Completed with
conclusion Success, a request for InProgress is accepted and forwarded
(a second outbound update carrying status in_progress and no
conclusion), so the recorded result is not immutable and nothing raises
an InvalidTransitionError (the embedded update function is total). -/
theorem update_check_accepts_backward_transition :
    finalStatus "X" c4Step1.trace = some GithubCommitStatus.completed ∧
      finalConclusion "X" c4Step1.trace = some GithubCommitConclusion.success ∧
      finalStatus "X" c4Step2.trace = some GithubCommitStatus.in_progress ∧
      finalConclusion "X" c4Step2.trace = none ∧
      (updatesFor "X" c4Step2.trace).length = 2 := by
  decide

/-- C4 amended: _update_check accepts every requested status and
conclusion unconditionally: each call appends exactly one outbound
update for the named check carrying exactly the requested status and
conclusion, with no ordering check, no requirement of a conclusion for
Completed, and no InvalidTransitionError (no error path exists). -/
theorem update_check_no_transition_validation (s : RunState) (name title : String)
    (status : GithubCommitStatus) (conclusion : Option GithubCommitConclusion)
    (summary : Option String) :
    ∃ k, updatesFor name (updateCheck s name status title conclusion summary).trace =
        updatesFor name s.trace ++ [k] ∧
      k.status = status ∧ k.conclusion = conclusion := by
  unfold updateCheck
  cases h : lookupHandle s.check_run_mapping name with
  | some hd =>
    refine ⟨stripImmutable (buildKwargs s name status title conclusion summary),
      ?_, rfl, rfl⟩
    simp [updatesFor, List.filterMap_append, kwargsOfUpdateFor]
  | none =>
    refine ⟨buildKwargs s name status title conclusion summary, ?_, rfl, rfl⟩
    simp [updatesFor, List.filterMap_append, kwargsOfUpdateFor]

/-- One request to _update_check, as issued by the per-check wrapper
methods: the check name plus the payload arguments. -/
structure UpdateReq where
  name : String
  status : GithubCommitStatus
  title : String
  conclusion : Option GithubCommitConclusion
  summary : Option String
deriving DecidableEq

/-- A sequence of _update_check calls within one run. -/
def applyReqs (s : RunState) (reqs : List UpdateReq) : RunState :=
  reqs.foldl (fun s r => updateCheck s r.name r.status r.title r.conclusion r.summary) s

lemma lookupHandle_append (m1 m2 : List (String × Nat)) (n : String) :
    lookupHandle (m1 ++ m2) n =
      match lookupHandle m1 n with
      | some h => some h
      | none => lookupHandle m2 n := by
  induction m1 with
  | nil => simp [lookupHandle]
  | cons p rest ih =>
    obtain ⟨k, v⟩ := p
    by_cases hk : (k == n) = true
    · simp [lookupHandle, hk]
    · simp only [List.cons_append, lookupHandle, hk, Bool.false_eq_true, if_false]
      exact ih

lemma countCreatesFor_append (n : String) (t1 t2 : List Event) :
    countCreatesFor n (t1 ++ t2) = countCreatesFor n t1 + countCreatesFor n t2 := by
  simp [countCreatesFor, List.filter_append]

/-- The invariant _update_check maintains on the check-run cache and the
trace: the cache has an entry for a name iff exactly one creation for
that name was sent; every creation and every edit for a name targets the
cached handle; edits never carry the name, head_sha or started_at keys;
and the first update sent for a cached name was its creation. -/
def RegInv (s : RunState) : Prop :=
  (∀ n, countCreatesFor n s.trace =
    (if (lookupHandle s.check_run_mapping n).isSome then 1 else 0)) ∧
  (∀ n k h, Event.create n k h ∈ s.trace → lookupHandle s.check_run_mapping n = some h) ∧
  (∀ n h k, Event.edit n h k ∈ s.trace →
    lookupHandle s.check_run_mapping n = some h ∧
      k.name = none ∧ k.head_sha = none ∧ k.started_at = false) ∧
  (∀ n, lookupHandle s.check_run_mapping n = none →
    s.trace.filter (isUpdateFor n) = []) ∧
  (∀ n h, lookupHandle s.check_run_mapping n = some h →
    ∃ k rest, s.trace.filter (isUpdateFor n) = Event.create n k h :: rest)

lemma RegInv_empty (sha : String) : RegInv (emptyRunState sha) := by
  refine ⟨?_, ?_, ?_, ?_, ?_⟩ <;> simp [emptyRunState, lookupHandle, countCreatesFor]

lemma RegInv_updateCheck (s : RunState) (nm : String) (st : GithubCommitStatus)
    (t : String) (c : Option GithubCommitConclusion) (sm : Option String)
    (hInv : RegInv s) : RegInv (updateCheck s nm st t c sm) := by
  obtain ⟨h1, h2, h3, h4, h5⟩ := hInv
  unfold updateCheck
  cases hl : lookupHandle s.check_run_mapping nm with
  | some hd =>
    refine ⟨?_, ?_, ?_, ?_, ?_⟩
    · intro n
      simp only [countCreatesFor_append]
      have : countCreatesFor n [Event.edit nm hd
          (stripImmutable (buildKwargs s nm st t c sm))] = 0 := by
        simp [countCreatesFor, isCreateFor]
      rw [this, Nat.add_zero]
      exact h1 n
    · intro n k h hmem
      simp only [List.mem_append, List.mem_singleton] at hmem
      rcases hmem with hmem | hmem
      · exact h2 n k h hmem
      · cases hmem
    · intro n h k hmem
      simp only [List.mem_append, List.mem_singleton] at hmem
      rcases hmem with hmem | hmem
      · exact h3 n h k hmem
      · injection hmem with e1 e2 e3
        subst e1; subst e2; subst e3
        exact ⟨hl, rfl, rfl, rfl⟩
    · intro n hn
      have hne : (nm == n) = false := by
        rcases hb : (nm == n) with _ | _
        · rfl
        · exfalso
          have : nm = n := by
            have := hb
            exact eq_of_beq this
          rw [this] at hl
          rw [hn] at hl
          cases hl
      rw [List.filter_append, h4 n hn]
      simp [isUpdateFor, isCreateFor, isEditFor, hne]
    · intro n h hn
      obtain ⟨k0, rest, hk0⟩ := h5 n h hn
      rw [List.filter_append, hk0]
      exact ⟨k0, rest ++ List.filter (isUpdateFor n) [Event.edit nm hd
        (stripImmutable (buildKwargs s nm st t c sm))], by simp⟩
  | none =>
    refine ⟨?_, ?_, ?_, ?_, ?_⟩
    · intro n
      simp only [countCreatesFor_append]
      rw [lookupHandle_append]
      by_cases hb : (nm == n) = true
      · have heq : nm = n := eq_of_beq hb
        subst heq
        rw [hl]
        have hz : countCreatesFor nm s.trace = 0 := by
          rw [h1 nm, hl]
          rfl
        rw [hz]
        simp [countCreatesFor, isCreateFor, lookupHandle]
      · have hone : countCreatesFor n [Event.create nm (buildKwargs s nm st t c sm)
            s.nextHandle] = 0 := by
          simp [countCreatesFor, isCreateFor, hb]
        rw [hone, Nat.add_zero, h1 n]
        cases hls : lookupHandle s.check_run_mapping n with
        | some hx => rfl
        | none => simp [lookupHandle, hb]
    · intro n k h hmem
      rw [lookupHandle_append]
      simp only [List.mem_append, List.mem_singleton] at hmem
      rcases hmem with hmem | hmem
      · rw [h2 n k h hmem]
      · injection hmem with e1 e2 e3
        subst e1; subst e2; subst e3
        rw [hl]
        simp [lookupHandle]
    · intro n h k hmem
      rw [lookupHandle_append]
      simp only [List.mem_append, List.mem_singleton] at hmem
      rcases hmem with hmem | hmem
      · obtain ⟨hlk, hrest⟩ := h3 n h k hmem
        rw [hlk]
        exact ⟨rfl, hrest⟩
      · cases hmem
    · intro n hn
      rw [lookupHandle_append] at hn
      cases hls : lookupHandle s.check_run_mapping n with
      | some hx => rw [hls] at hn; cases hn
      | none =>
        rw [hls] at hn
        simp only [lookupHandle] at hn
        by_cases hb : (nm == n) = true
        · rw [if_pos hb] at hn; cases hn
        · rw [List.filter_append, h4 n hls]
          simp [isUpdateFor, isCreateFor, isEditFor, hb]
    · intro n h hn
      rw [lookupHandle_append] at hn
      cases hls : lookupHandle s.check_run_mapping n with
      | some hx =>
        rw [hls] at hn
        obtain ⟨k0, rest, hk0⟩ := h5 n hx hls
        rw [List.filter_append, hk0]
        refine ⟨k0, rest ++ List.filter (isUpdateFor n) [Event.create nm
          (buildKwargs s nm st t c sm) s.nextHandle], ?_⟩
        have : some hx = some h := hn
        injection this with hxh
        subst hxh
        simp
      | none =>
        rw [hls] at hn
        simp only [lookupHandle] at hn
        by_cases hb : (nm == n) = true
        · have heq : nm = n := eq_of_beq hb
          subst heq
          rw [if_pos hb] at hn
          injection hn with hfh
          rw [List.filter_append, h4 nm hls]
          refine ⟨buildKwargs s nm st t c sm, [], ?_⟩
          simp [isUpdateFor, isCreateFor, hfh]
        · rw [if_neg hb] at hn
          cases hn

lemma RegInv_applyReqs (s : RunState) (reqs : List UpdateReq) (h : RegInv s) :
    RegInv (applyReqs s reqs) := by
  induction reqs generalizing s with
  | nil => exact h
  | cons r rest ih =>
    exact ih (updateCheck s r.name r.status r.title r.conclusion r.summary)
      (RegInv_updateCheck s r.name r.status r.title r.conclusion r.summary h)

lemma lookup_updateCheck_isSome (s : RunState) (nm : String) (st : GithubCommitStatus)
    (t : String) (c : Option GithubCommitConclusion) (sm : Option String) (n : String) :
    (lookupHandle (updateCheck s nm st t c sm).check_run_mapping n).isSome =
      ((lookupHandle s.check_run_mapping n).isSome || (nm == n)) := by
  unfold updateCheck
  cases hl : lookupHandle s.check_run_mapping nm with
  | some hd =>
    by_cases hb : (nm == n) = true
    · have heq : nm = n := eq_of_beq hb
      subst heq
      simp [hl]
    · simp [hb]
  | none =>
    dsimp only
    rw [lookupHandle_append]
    cases hls : lookupHandle s.check_run_mapping n with
    | some hx => simp
    | none =>
      by_cases hb : (nm == n) = true
      · simp [lookupHandle, hb]
      · simp [lookupHandle, hb]

lemma lookup_applyReqs_isSome (s : RunState) (reqs : List UpdateReq) (n : String) :
    (lookupHandle (applyReqs s reqs).check_run_mapping n).isSome =
      ((lookupHandle s.check_run_mapping n).isSome || reqs.any (fun r => r.name == n)) := by
  induction reqs generalizing s with
  | nil => simp [applyReqs]
  | cons r rest ih =>
    have hstep : applyReqs s (r :: rest) =
        applyReqs (updateCheck s r.name r.status r.title r.conclusion r.summary) rest := by
      simp [applyReqs]
    rw [hstep, ih, lookup_updateCheck_isSome]
    simp [Bool.or_assoc]

/-- C6: within one run, the first _update_check call for a given check
name creates exactly one external check run (no later call ever creates
a second one); every later call for that name edits the check run whose
handle was cached at creation; and edit payloads never resend the name,
the commit identity (head_sha) or the started_at timestamp. -/
theorem commit_status_registry_single_create (sha : String) (reqs : List UpdateReq)
    (name : String) :
    countCreatesFor name (applyReqs (emptyRunState sha) reqs).trace =
        (if reqs.any (fun r => r.name == name) then 1 else 0) ∧
      (∀ k h, Event.create name k h ∈ (applyReqs (emptyRunState sha) reqs).trace →
        ∀ h2 k2, Event.edit name h2 k2 ∈ (applyReqs (emptyRunState sha) reqs).trace →
          h2 = h) ∧
      (∀ h2 k2, Event.edit name h2 k2 ∈ (applyReqs (emptyRunState sha) reqs).trace →
        k2.name = none ∧ k2.head_sha = none ∧ k2.started_at = false) ∧
      (reqs.any (fun r => r.name == name) = true →
        ∃ k h rest, (applyReqs (emptyRunState sha) reqs).trace.filter (isUpdateFor name) =
          Event.create name k h :: rest) := by
  have hInv := RegInv_applyReqs (emptyRunState sha) reqs (RegInv_empty sha)
  obtain ⟨h1, h2, h3, h4, h5⟩ := hInv
  refine ⟨?_, ?_, ?_, ?_⟩
  · rw [h1 name, lookup_applyReqs_isSome]
    simp [emptyRunState, lookupHandle]
  · intro k h hc h2x k2 he
    have hck := h2 name k h hc
    have hek := (h3 name h2x k2 he).1
    rw [hck] at hek
    exact (Option.some.inj hek).symm
  · intro h2x k2 he
    exact (h3 name h2x k2 he).2
  · intro hany
    have hsome : (lookupHandle
        (applyReqs (emptyRunState sha) reqs).check_run_mapping name).isSome = true := by
      rw [lookup_applyReqs_isSome]
      simp [emptyRunState, lookupHandle, hany]
    cases hlk : lookupHandle (applyReqs (emptyRunState sha) reqs).check_run_mapping name with
    | none => rw [hlk] at hsome; cases hsome
    | some h =>
      obtain ⟨k, rest, hk⟩ := h5 name h hlk
      exact ⟨k, h, rest, hk⟩

def reqsTwiceX : List UpdateReq :=
  [{ name := "X", status := .queued, title := "t1", conclusion := none, summary := none },
   { name := "X", status := .completed, title := "t2",
     conclusion := some GithubCommitConclusion.success, summary := none }]

/-- Witness for C6: two updates for the same check name result in
exactly one creation. -/
theorem commit_status_registry_single_create_witness :
    countCreatesFor "X" (applyReqs (emptyRunState "sha") reqsTwiceX).trace = 1 :=
  (commit_status_registry_single_create "sha" reqsTwiceX "X").1.trans (by decide)

lemma updatesFor_updateCheck_self (s : RunState) (name title : String)
    (status : GithubCommitStatus) (conclusion : Option GithubCommitConclusion)
    (summary : Option String) :
    ∃ k, updatesFor name (updateCheck s name status title conclusion summary).trace =
        updatesFor name s.trace ++ [k] ∧ k.status = status ∧ k.conclusion = conclusion := by
  unfold updateCheck
  cases h : lookupHandle s.check_run_mapping name with
  | some hd =>
    refine ⟨stripImmutable (buildKwargs s name status title conclusion summary),
      ?_, rfl, rfl⟩
    simp [updatesFor, List.filterMap_append, kwargsOfUpdateFor]
  | none =>
    refine ⟨buildKwargs s name status title conclusion summary, ?_, rfl, rfl⟩
    simp [updatesFor, List.filterMap_append, kwargsOfUpdateFor]

lemma updatesFor_pushAction (s : RunState) (a : ActionKind) (n : String) :
    updatesFor n (pushAction s a).trace = updatesFor n s.trace := by
  simp [pushAction, updatesFor, List.filterMap_append, kwargsOfUpdateFor]

lemma updatesFor_update_prod_check (env : Env) (s : RunState) (st : GithubCommitStatus)
    (c : Option GithubCommitConclusion) :
    ∃ k, updatesFor prodCheckName (update_prod_environment_check env s st c).trace =
        updatesFor prodCheckName s.trace ++ [k] ∧ k.status = st ∧ k.conclusion = c := by
  cases st
  · exact updatesFor_updateCheck_self s prodCheckName
      "Waiting to see if we can deploy to prod" .queued c none
  · exact updatesFor_updateCheck_self s prodCheckName "Deploying to Prod" .in_progress c none
  · exact updatesFor_updateCheck_self s prodCheckName _ .completed c none

/-- C10: in _deploy_production a PlanError raised by deploy_to_prod is
caught and reported as Completed with conclusion ActionRequired (not
Failure), the stage returning failure to the sequencer; an exception
that is not a PlanError propagates out of the stage with only the
InProgress update having been sent, so the ProdDeploy check is not
completed by the stage. -/
theorem deploy_production_plan_error_handling (env : Env) (s : RunState) :
    (env.deployOutcome = some PyExn.planError →
      (deploy_production_stage env s).2 = StageRes.ok false ∧
        ∃ k1 k2, updatesFor prodCheckName (deploy_production_stage env s).1.trace =
            updatesFor prodCheckName s.trace ++ [k1, k2] ∧
          k1.status = GithubCommitStatus.in_progress ∧
          k2.status = GithubCommitStatus.completed ∧
          k2.conclusion = some GithubCommitConclusion.action_required) ∧
    (env.deployOutcome = some PyExn.otherError →
      (deploy_production_stage env s).2 = StageRes.exn PyExn.otherError ∧
        ∃ k1, updatesFor prodCheckName (deploy_production_stage env s).1.trace =
            updatesFor prodCheckName s.trace ++ [k1] ∧
          k1.status = GithubCommitStatus.in_progress) := by
  constructor
  · intro hout
    obtain ⟨k1, hk1, hk1s, hk1c⟩ := updatesFor_update_prod_check env s .in_progress none
    obtain ⟨k2, hk2, hk2s, hk2c⟩ := updatesFor_update_prod_check env
      (pushAction (update_prod_environment_check env s .in_progress none)
        ActionKind.prodDeployApply)
      .completed (some GithubCommitConclusion.action_required)
    unfold deploy_production_stage
    rw [hout]
    refine ⟨rfl, k1, k2, ?_, hk1s, hk2s, hk2c⟩
    show updatesFor prodCheckName (update_prod_environment_check env
        (pushAction (update_prod_environment_check env s .in_progress none)
          ActionKind.prodDeployApply)
        .completed (some GithubCommitConclusion.action_required)).trace =
      updatesFor prodCheckName s.trace ++ [k1, k2]
    rw [hk2, updatesFor_pushAction, hk1, List.append_assoc]
    rfl
  · intro hout
    obtain ⟨k1, hk1, hk1s, hk1c⟩ := updatesFor_update_prod_check env s .in_progress none
    unfold deploy_production_stage
    rw [hout]
    refine ⟨rfl, k1, ?_, hk1s⟩
    show updatesFor prodCheckName (pushAction
        (update_prod_environment_check env s .in_progress none)
        ActionKind.prodDeployApply).trace =
      updatesFor prodCheckName s.trace ++ [k1]
    rw [updatesFor_pushAction, hk1]

def envDeployPlanError : Env :=
  { users := [], reviews := [], testsRaise := false, approvalRaises := false,
    prEnvOutcome := none, deployOutcome := some PyExn.planError, head_sha := "headsha",
    prEnvironmentName := "repo_12", testSummaryText := "test output",
    prSuccessSummaryText := "affected models table" }

/-- Witness for C10: with a PlanError from the deploy collaborator the
stage reports ActionRequired and returns failure. -/
theorem deploy_production_plan_error_handling_witness :
    (deploy_production_stage envDeployPlanError (emptyRunState "headsha")).2 =
        StageRes.ok false ∧
      ∃ k1 k2, updatesFor prodCheckName
          (deploy_production_stage envDeployPlanError (emptyRunState "headsha")).1.trace =
            updatesFor prodCheckName (emptyRunState "headsha").trace ++ [k1, k2] ∧
        k1.status = GithubCommitStatus.in_progress ∧
        k2.status = GithubCommitStatus.completed ∧
        k2.conclusion = some GithubCommitConclusion.action_required :=
  (deploy_production_plan_error_handling envDeployPlanError (emptyRunState "headsha")).1 rfl

/-- The claim-relevant projection of one trace event: which check an
update addresses with which status and conclusion, or which collaborator
an action event invokes. -/
inductive SkelEntry
  | upd (name : String) (status : GithubCommitStatus)
      (conclusion : Option GithubCommitConclusion)
  | act (kind : ActionKind)
deriving DecidableEq

/-- Project one event onto its skeleton. -/
def skelEntryOf : Event → SkelEntry
  | .create n k _ => SkelEntry.upd n k.status k.conclusion
  | .edit n _ k => SkelEntry.upd n k.status k.conclusion
  | .action a => SkelEntry.act a

/-- Project a trace onto its skeleton. -/
def skelOf (tr : List Event) : List SkelEntry :=
  tr.map skelEntryOf

/-- Status and conclusion of the updates a skeleton holds for a name. -/
def skUpdatesFor (name : String) (sk : List SkelEntry) :
    List (GithubCommitStatus × Option GithubCommitConclusion) :=
  sk.filterMap fun x =>
    match x with
    | .upd n st c => if n == name then some (st, c) else none
    | .act _ => none

def skIsQueuedUpdateFor (name : String) : SkelEntry → Bool
  | .upd n st _ => n == name && st == GithubCommitStatus.queued
  | .act _ => false

def skIsAnyAction : SkelEntry → Bool
  | .act _ => true
  | _ => false

def skIsActionOf (a : ActionKind) : SkelEntry → Bool
  | .act b => a == b
  | _ => false

/-- precedesAllB on skeletons. -/
def skPrecedesAllB (p q : SkelEntry → Bool) : List SkelEntry → Bool
  | [] => true
  | e :: rest => if q e then false else if p e then true else skPrecedesAllB p q rest

lemma lastOption_map {α β : Type} (f : α → β) (l : List α) :
    lastOption (l.map f) = (lastOption l).map f := by
  induction l with
  | nil => rfl
  | cons a rest ih =>
    cases rest with
    | nil => rfl
    | cons b rest2 => simpa using ih

lemma any_map_general {α β : Type} (f : α → β) (l : List α) (p : β → Bool) :
    (l.map f).any p = l.any (fun a => p (f a)) := by
  induction l with
  | nil => rfl
  | cons a rest ih => simp [ih]

lemma filterMap_map_general {α β γ : Type} (f : α → β) (g : β → Option γ) (l : List α) :
    (l.map f).filterMap g = l.filterMap (fun a => g (f a)) := by
  induction l with
  | nil => rfl
  | cons a rest ih =>
    cases h : g (f a) <;> simp [List.filterMap_cons, h, ih]

lemma map_filterMap_general {α β γ : Type} (f : α → Option β) (g : β → γ) (l : List α) :
    (l.filterMap f).map g = l.filterMap (fun a => (f a).map g) := by
  induction l with
  | nil => rfl
  | cons a rest ih =>
    cases h : f a <;> simp [List.filterMap_cons, h, ih]

lemma updatesFor_map_skel (name : String) (tr : List Event) :
    (updatesFor name tr).map (fun k => (k.status, k.conclusion)) =
      skUpdatesFor name (skelOf tr) := by
  rw [updatesFor, skUpdatesFor, skelOf, map_filterMap_general, filterMap_map_general]
  congr 1
  funext e
  cases e with
  | create n k hd =>
    by_cases hb : (n == name) = true <;> simp [kwargsOfUpdateFor, skelEntryOf, hb]
  | edit n hd k =>
    by_cases hb : (n == name) = true <;> simp [kwargsOfUpdateFor, skelEntryOf, hb]
  | action a => simp [kwargsOfUpdateFor, skelEntryOf]

lemma finalStatus_skel (name : String) (tr : List Event) :
    finalStatus name tr =
      (lastOption (skUpdatesFor name (skelOf tr))).map (fun p => p.1) := by
  rw [← updatesFor_map_skel, lastOption_map]
  simp [finalStatus, finalKwargs, Option.map_map]
  rfl

lemma finalConclusion_skel (name : String) (tr : List Event) :
    finalConclusion name tr =
      (lastOption (skUpdatesFor name (skelOf tr))).bind (fun p => p.2) := by
  rw [← updatesFor_map_skel, lastOption_map]
  cases h : lastOption (updatesFor name tr) <;>
    simp [finalConclusion, finalKwargs, h]

lemma actionInvoked_skel (a : ActionKind) (tr : List Event) :
    actionInvoked a tr = (skelOf tr).any (skIsActionOf a) := by
  rw [actionInvoked, skelOf, any_map_general]
  congr 1
  funext e
  cases e <;> rfl

lemma precedesAllB_skel (p q : Event → Bool) (p2 q2 : SkelEntry → Bool)
    (hp : ∀ e, p e = p2 (skelEntryOf e)) (hq : ∀ e, q e = q2 (skelEntryOf e))
    (tr : List Event) :
    precedesAllB p q tr = skPrecedesAllB p2 q2 (skelOf tr) := by
  induction tr with
  | nil => rfl
  | cons e rest ih =>
    simp only [precedesAllB, skelOf, List.map_cons, skPrecedesAllB, hp e, hq e]
    rw [show List.map skelEntryOf rest = skelOf rest from rfl, ih]

lemma isQueuedUpdateFor_skel (name : String) (e : Event) :
    isQueuedUpdateFor name e = skIsQueuedUpdateFor name (skelEntryOf e) := by
  cases e <;> rfl

lemma isAnyAction_skel (e : Event) : isAnyAction e = skIsAnyAction (skelEntryOf e) := by
  cases e <;> rfl

lemma isActionOf_skel (a : ActionKind) (e : Event) :
    isActionOf a e = skIsActionOf a (skelEntryOf e) := by
  cases e <;> rfl

lemma skelOf_append (t1 t2 : List Event) : skelOf (t1 ++ t2) = skelOf t1 ++ skelOf t2 := by
  simp [skelOf]

lemma skelOf_updateCheck (s : RunState) (n : String) (st : GithubCommitStatus)
    (t : String) (c : Option GithubCommitConclusion) (sm : Option String) :
    skelOf (updateCheck s n st t c sm).trace =
      skelOf s.trace ++ [SkelEntry.upd n st c] := by
  unfold updateCheck
  cases hl : lookupHandle s.check_run_mapping n <;>
    simp [skelOf, skelEntryOf, buildKwargs, stripImmutable]

lemma skelOf_pushAction (s : RunState) (a : ActionKind) :
    skelOf (pushAction s a).trace = skelOf s.trace ++ [SkelEntry.act a] := by
  simp [pushAction, skelOf, skelEntryOf]

lemma skelOf_update_test_check (env : Env) (s : RunState) (st : GithubCommitStatus)
    (c : Option GithubCommitConclusion) :
    skelOf (update_test_check env s st c).trace =
      skelOf s.trace ++ [SkelEntry.upd testCheckName st c] := by
  cases st <;> simp [update_test_check, skelOf_updateCheck]

lemma skelOf_update_required_approval_check (env : Env) (s : RunState)
    (st : GithubCommitStatus) (c : Option GithubCommitConclusion) :
    skelOf (update_required_approval_check env s st c).trace =
      skelOf s.trace ++ [SkelEntry.upd approvalCheckName st c] := by
  cases st <;> simp [update_required_approval_check, skelOf_updateCheck]

lemma skelOf_update_prod_environment_check (env : Env) (s : RunState)
    (st : GithubCommitStatus) (c : Option GithubCommitConclusion) :
    skelOf (update_prod_environment_check env s st c).trace =
      skelOf s.trace ++ [SkelEntry.upd prodCheckName st c] := by
  cases st <;> simp [update_prod_environment_check, skelOf_updateCheck]

lemma skelOf_update_pr_environment_check (env : Env) (s : RunState)
    (st : GithubCommitStatus) (c : Option GithubCommitConclusion) :
    skelOf (update_pr_environment_check env s st c).trace =
      skelOf s.trace ++ [SkelEntry.upd prEnvCheckName st c] ++
        (match st, c with
         | GithubCommitStatus.completed, some GithubCommitConclusion.success =>
             [SkelEntry.act ActionKind.commentUpdate]
         | _, _ => []) := by
  cases st with
  | queued => simp [update_pr_environment_check, skelOf_updateCheck]
  | in_progress => simp [update_pr_environment_check, skelOf_updateCheck]
  | completed =>
    cases c with
    | none => simp [update_pr_environment_check, skelOf_updateCheck]
    | some cc =>
      have hact : skelOf [Event.action ActionKind.commentUpdate] =
          [SkelEntry.act ActionKind.commentUpdate] := rfl
      cases cc <;>
        simp [update_pr_environment_check, skelOf_append, skelOf_updateCheck, hact]

/-- check_required_approvers_stage with the approval-gate boolean
abstracted out (definitionally equal to the original when instantiated
with has_required_approval; used to reason about run_all by cases on the
gate decisions). -/
def check_required_approvers_stage_gen (hasApp : Bool) (env : Env) (s : RunState) :
    RunState × StageRes :=
  let s := update_required_approval_check env s .in_progress none
  let s := pushAction s .approvalFetch
  if env.approvalRaises then
    (s, StageRes.exn PyExn.otherError)
  else if hasApp then
    (update_required_approval_check env s .completed (some .success), StageRes.ok true)
  else
    (update_required_approval_check env s .completed (some .neutral), StageRes.ok false)

/-- run_all with the two approval decisions (whether the approval check
participates, and whether the gate passes) abstracted out. -/
def run_all_gen (d hasApp : Bool) (env : Env) : RunState × Option PyExn :=
  let s := initRunState env
  let s := update_pr_environment_check env s .queued none
  let s := update_prod_environment_check env s .queued none
  let s := update_test_check env s .queued none
  let tested := run_tests_stage env s
  let tests_passed := tested.2
  let approvalStep :=
    if d then
      check_required_approvers_stage_gen hasApp env
        (update_required_approval_check env tested.1 .queued none)
    else (tested.1, StageRes.ok true)
  match approvalStep.2 with
  | StageRes.exn e => (approvalStep.1, some e)
  | StageRes.ok has_approval =>
    let prStep := update_pr_environment_stage env approvalStep.1
    match prStep.2 with
    | StageRes.exn e => (prStep.1, some e)
    | StageRes.ok pr_ok =>
      if tests_passed && has_approval && pr_ok then
        let depStep := deploy_production_stage env prStep.1
        match depStep.2 with
        | StageRes.exn e => (depStep.1, some e)
        | StageRes.ok _ => (depStep.1, none)
      else
        (update_prod_environment_check env prStep.1 .completed (some .skipped), none)

lemma stageSeq_pair_snd_eq (env : Env) (p : RunState × StageRes) (tp : Bool) :
    (match p with
     | (s, StageRes.exn e) => (s, some e)
     | (s, StageRes.ok has_approval) =>
       match update_pr_environment_stage env s with
       | (s, StageRes.exn e) => (s, some e)
       | (s, StageRes.ok pr_ok) =>
         if tp && has_approval && pr_ok then
           match deploy_production_stage env s with
           | (s, StageRes.exn e) => (s, some e)
           | (s, StageRes.ok _) => (s, none)
         else
           (update_prod_environment_check env s .completed (some .skipped), none)) =
    (match p.2 with
     | StageRes.exn e => (p.1, some e)
     | StageRes.ok has_approval =>
       let prStep := update_pr_environment_stage env p.1
       match prStep.2 with
       | StageRes.exn e => (prStep.1, some e)
       | StageRes.ok pr_ok =>
         if tp && has_approval && pr_ok then
           let depStep := deploy_production_stage env prStep.1
           match depStep.2 with
           | StageRes.exn e => (depStep.1, some e)
           | StageRes.ok _ => (depStep.1, none)
         else
           (update_prod_environment_check env prStep.1 .completed (some .skipped), none)) := by
  rcases p with ⟨s1, r1⟩
  cases r1 with
  | exn e => rfl
  | ok b =>
    dsimp only
    rcases h2 : update_pr_environment_stage env s1 with ⟨s2, r2⟩
    cases r2 with
    | exn e => rfl
    | ok pr_ok =>
      dsimp only
      by_cases hc : (tp && b && pr_ok) = true
      · rw [if_pos hc, if_pos hc]
        rcases h3 : deploy_production_stage env s2 with ⟨s3, r3⟩
        cases r3 <;> rfl
      · rw [if_neg hc, if_neg hc]

lemma run_all_eq_gen (env : Env) :
    run_all env = run_all_gen (do_required_approval_check env.users)
      (has_required_approval env.users env.reviews) env := by
  unfold run_all run_all_gen
  exact stageSeq_pair_snd_eq env _ _

lemma run_tests_stage_eq (env : Env) (s : RunState) :
    run_tests_stage env s = ((run_tests_stage env s).1, !env.testsRaise) := by
  cases h : env.testsRaise <;> simp [run_tests_stage, h]

lemma skelOf_run_tests_stage (env : Env) (s : RunState) :
    skelOf (run_tests_stage env s).1.trace =
      skelOf s.trace ++
        [SkelEntry.upd testCheckName .in_progress none,
         SkelEntry.act ActionKind.runTestsAction,
         SkelEntry.upd testCheckName .completed
           (some (if env.testsRaise then GithubCommitConclusion.failure
                  else GithubCommitConclusion.success))] := by
  cases h : env.testsRaise <;>
    simp [run_tests_stage, h, skelOf_update_test_check, skelOf_pushAction]

lemma check_required_approvers_stage_gen_eq (hasApp : Bool) (env : Env) (s : RunState) :
    check_required_approvers_stage_gen hasApp env s =
      ((check_required_approvers_stage_gen hasApp env s).1,
        if env.approvalRaises then StageRes.exn PyExn.otherError
        else StageRes.ok hasApp) := by
  cases har : env.approvalRaises <;> cases hasApp <;>
    simp [check_required_approvers_stage_gen, har]

lemma skelOf_check_required_approvers_stage_gen (hasApp : Bool) (env : Env) (s : RunState) :
    skelOf (check_required_approvers_stage_gen hasApp env s).1.trace =
      skelOf s.trace ++
        [SkelEntry.upd approvalCheckName .in_progress none,
         SkelEntry.act ActionKind.approvalFetch] ++
        (if env.approvalRaises then []
         else [SkelEntry.upd approvalCheckName .completed
           (some (if hasApp then GithubCommitConclusion.success
                  else GithubCommitConclusion.neutral))]) := by
  cases har : env.approvalRaises <;> cases hasApp <;>
    simp [check_required_approvers_stage_gen, har,
      skelOf_update_required_approval_check, skelOf_pushAction]

lemma update_pr_environment_stage_eq (env : Env) (s : RunState) :
    update_pr_environment_stage env s =
      ((update_pr_environment_stage env s).1,
        match env.prEnvOutcome with
        | none => StageRes.ok true
        | some PyExn.planError => StageRes.ok false
        | some PyExn.otherError => StageRes.exn PyExn.otherError) := by
  rcases hpr : env.prEnvOutcome with _ | (_ | _) <;>
    simp [update_pr_environment_stage, hpr]

lemma skelOf_update_pr_environment_stage (env : Env) (s : RunState) :
    skelOf (update_pr_environment_stage env s).1.trace =
      skelOf s.trace ++
        [SkelEntry.upd prEnvCheckName .in_progress none,
         SkelEntry.act ActionKind.prEnvApply] ++
        (match env.prEnvOutcome with
         | none => [SkelEntry.upd prEnvCheckName .completed
             (some GithubCommitConclusion.success),
             SkelEntry.act ActionKind.commentUpdate]
         | some PyExn.planError => [SkelEntry.upd prEnvCheckName .completed
             (some GithubCommitConclusion.action_required)]
         | some PyExn.otherError => []) := by
  rcases hpr : env.prEnvOutcome with _ | (_ | _) <;>
    simp [update_pr_environment_stage, hpr, skelOf_update_pr_environment_check,
      skelOf_pushAction]

lemma deploy_production_stage_eq (env : Env) (s : RunState) :
    deploy_production_stage env s =
      ((deploy_production_stage env s).1,
        match env.deployOutcome with
        | none => StageRes.ok true
        | some PyExn.planError => StageRes.ok false
        | some PyExn.otherError => StageRes.exn PyExn.otherError) := by
  rcases hdep : env.deployOutcome with _ | (_ | _) <;>
    simp [deploy_production_stage, hdep]

lemma skelOf_deploy_production_stage (env : Env) (s : RunState) :
    skelOf (deploy_production_stage env s).1.trace =
      skelOf s.trace ++
        [SkelEntry.upd prodCheckName .in_progress none,
         SkelEntry.act ActionKind.prodDeployApply] ++
        (match env.deployOutcome with
         | none => [SkelEntry.upd prodCheckName .completed
             (some GithubCommitConclusion.success)]
         | some PyExn.planError => [SkelEntry.upd prodCheckName .completed
             (some GithubCommitConclusion.action_required)]
         | some PyExn.otherError => []) := by
  rcases hdep : env.deployOutcome with _ | (_ | _) <;>
    simp [deploy_production_stage, hdep, skelOf_update_prod_environment_check,
      skelOf_pushAction]

lemma run_tests_stage_snd (env : Env) (s : RunState) :
    (run_tests_stage env s).2 = !env.testsRaise := by
  cases h : env.testsRaise <;> simp [run_tests_stage, h]

lemma check_required_approvers_stage_gen_snd (hasApp : Bool) (env : Env) (s : RunState) :
    (check_required_approvers_stage_gen hasApp env s).2 =
      (if env.approvalRaises then StageRes.exn PyExn.otherError
       else StageRes.ok hasApp) := by
  cases har : env.approvalRaises <;> cases hasApp <;>
    simp [check_required_approvers_stage_gen, har]

lemma update_pr_environment_stage_snd (env : Env) (s : RunState) :
    (update_pr_environment_stage env s).2 =
      (match env.prEnvOutcome with
       | none => StageRes.ok true
       | some PyExn.planError => StageRes.ok false
       | some PyExn.otherError => StageRes.exn PyExn.otherError) := by
  rcases hpr : env.prEnvOutcome with _ | (_ | _) <;>
    simp [update_pr_environment_stage, hpr]

lemma deploy_production_stage_snd (env : Env) (s : RunState) :
    (deploy_production_stage env s).2 =
      (match env.deployOutcome with
       | none => StageRes.ok true
       | some PyExn.planError => StageRes.ok false
       | some PyExn.otherError => StageRes.exn PyExn.otherError) := by
  rcases hdep : env.deployOutcome with _ | (_ | _) <;>
    simp [deploy_production_stage, hdep]

lemma skelOf_initRunState (env : Env) : skelOf (initRunState env).trace = [] := rfl

/-- The skeleton of the trace run_all produces, as a function of the six
decisions: whether the approval check participates (d), whether the gate
passes (hasApp), whether the tests collaborator raises (tR), whether the
review fetch raises (aR), and the outcomes of the PR environment sync
and the prod deploy. -/
def skelSpec (d hasApp tR aR : Bool) (prO dO : Option PyExn) : List SkelEntry :=
  [SkelEntry.upd prEnvCheckName .queued none,
   SkelEntry.upd prodCheckName .queued none,
   SkelEntry.upd testCheckName .queued none,
   SkelEntry.upd testCheckName .in_progress none,
   SkelEntry.act ActionKind.runTestsAction,
   SkelEntry.upd testCheckName .completed
     (some (if tR then GithubCommitConclusion.failure else GithubCommitConclusion.success))] ++
  (if d then
    [SkelEntry.upd approvalCheckName .queued none,
     SkelEntry.upd approvalCheckName .in_progress none,
     SkelEntry.act ActionKind.approvalFetch] ++
    (if aR then []
     else [SkelEntry.upd approvalCheckName .completed
       (some (if hasApp then GithubCommitConclusion.success
              else GithubCommitConclusion.neutral))])
   else []) ++
  (if d && aR then []
   else
    [SkelEntry.upd prEnvCheckName .in_progress none,
     SkelEntry.act ActionKind.prEnvApply] ++
    (match prO with
     | none => [SkelEntry.upd prEnvCheckName .completed
         (some GithubCommitConclusion.success),
         SkelEntry.act ActionKind.commentUpdate]
     | some PyExn.planError => [SkelEntry.upd prEnvCheckName .completed
         (some GithubCommitConclusion.action_required)]
     | some PyExn.otherError => []) ++
    (match prO with
     | some PyExn.otherError => []
     | _ =>
       if !tR && (!d || hasApp) && (prO == none) then
         [SkelEntry.upd prodCheckName .in_progress none,
          SkelEntry.act ActionKind.prodDeployApply] ++
         (match dO with
          | none => [SkelEntry.upd prodCheckName .completed
              (some GithubCommitConclusion.success)]
          | some PyExn.planError => [SkelEntry.upd prodCheckName .completed
              (some GithubCommitConclusion.action_required)]
          | some PyExn.otherError => [])
       else [SkelEntry.upd prodCheckName .completed
         (some GithubCommitConclusion.skipped)]))

/-- The exception escaping run_all, as a function of the six decisions. -/
def runExnSpec (d hasApp tR aR : Bool) (prO dO : Option PyExn) : Option PyExn :=
  if d && aR then some PyExn.otherError
  else if prO == some PyExn.otherError then some PyExn.otherError
  else if (!tR && (!d || hasApp) && (prO == none)) && (dO == some PyExn.otherError) then
    some PyExn.otherError
  else none

lemma run_all_gen_characterization (d hasApp : Bool) (env : Env) :
    skelOf (run_all_gen d hasApp env).1.trace =
      skelSpec d hasApp env.testsRaise env.approvalRaises env.prEnvOutcome
        env.deployOutcome ∧
    (run_all_gen d hasApp env).2 =
      runExnSpec d hasApp env.testsRaise env.approvalRaises env.prEnvOutcome
        env.deployOutcome := by
  cases d <;> cases hasApp <;>
    cases htr : env.testsRaise <;> cases har : env.approvalRaises <;>
      rcases hpr : env.prEnvOutcome with _ | (_ | _) <;>
        rcases hdep : env.deployOutcome with _ | (_ | _) <;>
          simp [run_all_gen, skelSpec, runExnSpec, skelOf_initRunState,
            run_tests_stage_snd, check_required_approvers_stage_gen_snd,
            update_pr_environment_stage_snd, deploy_production_stage_snd,
            skelOf_run_tests_stage, skelOf_check_required_approvers_stage_gen,
            skelOf_update_pr_environment_stage, skelOf_deploy_production_stage,
            skelOf_update_test_check, skelOf_update_required_approval_check,
            skelOf_update_pr_environment_check, skelOf_update_prod_environment_check,
            htr, har, hpr, hdep]

/-- Whether the tests stage passes (its collaborator did not raise). -/
def tests_pass (env : Env) : Bool := !env.testsRaise

/-- Whether the run aborts inside the approval stage (the stage runs and
its review fetch raises). -/
def approval_aborts (env : Env) : Bool :=
  do_required_approval_check env.users && env.approvalRaises

/-- Whether the approval gate passes for the purposes of the deploy
decision: not required, or evaluated without raising and satisfied. -/
def approval_gate_passes (env : Env) : Bool :=
  !do_required_approval_check env.users ||
    (!env.approvalRaises && has_required_approval env.users env.reviews)

/-- Whether the PR environment sync runs and succeeds. -/
def pr_sync_succeeds (env : Env) : Bool :=
  !approval_aborts env && (env.prEnvOutcome == none)

/-- C1 amended: when the Tests stage fails in run_all, the ProdDeploy
collaborator is never invoked, and (provided no uncaught collaborator
error aborts the run first) the ProdDeploy check ends Completed with
conclusion Skipped; however, contrary to the original claim, the
RequiredApproval collaborator (when required approvers are configured)
and the PrEnvironmentSync collaborator are still invoked. -/
theorem run_all_tests_fail_behavior (env : Env) (ht : env.testsRaise = true) :
    actionInvoked ActionKind.prodDeployApply (run_all env).1.trace = false ∧
    (env.approvalRaises = false → env.prEnvOutcome ≠ some PyExn.otherError →
      finalStatus prodCheckName (run_all env).1.trace = some GithubCommitStatus.completed ∧
      finalConclusion prodCheckName (run_all env).1.trace =
        some GithubCommitConclusion.skipped ∧
      actionInvoked ActionKind.prEnvApply (run_all env).1.trace = true ∧
      (do_required_approval_check env.users = true →
        actionInvoked ActionKind.approvalFetch (run_all env).1.trace = true)) := by
  obtain ⟨hskel, hexn⟩ := run_all_gen_characterization
    (do_required_approval_check env.users) (has_required_approval env.users env.reviews) env
  rw [run_all_eq_gen env]
  simp only [actionInvoked_skel, finalStatus_skel, finalConclusion_skel, hskel]
  rw [ht]
  cases hdo : do_required_approval_check env.users <;>
    cases hhas : has_required_approval env.users env.reviews <;>
      cases har : env.approvalRaises <;>
        rcases hpr : env.prEnvOutcome with _ | (_ | _) <;>
          rcases hdep : env.deployOutcome with _ | (_ | _) <;>
            decide

/-- Witness for C1 amended: with tests failing, a required approver
configured and no fatal error, the ProdDeploy collaborator is not
invoked, the prod check ends Skipped, and the approval and PR
environment collaborators do still run. -/
theorem run_all_tests_fail_behavior_witness :
    actionInvoked ActionKind.prodDeployApply (run_all envTestsFailApprover).1.trace =
        false ∧
      finalConclusion prodCheckName (run_all envTestsFailApprover).1.trace =
        some GithubCommitConclusion.skipped ∧
      actionInvoked ActionKind.prEnvApply (run_all envTestsFailApprover).1.trace = true := by
  obtain ⟨h1, h2⟩ := run_all_tests_fail_behavior envTestsFailApprover rfl
  obtain ⟨_, hconc, hpr, _⟩ := h2 rfl (by decide)
  exact ⟨h1, hconc, hpr⟩

/-- C2 amended: the ProdDeploy collaborator is invoked iff the Tests
stage passed, the approval gate passed (or was not required) and the PR
environment sync succeeded; when one of these predecessors failed and no
uncaught error has aborted the run, the ProdDeploy check is marked
Completed with conclusion Skipped without the deploy collaborator being
called. (If a non-PlanError aborts the run first, the ProdDeploy check
is left Queued instead of being marked Skipped.) -/
theorem run_all_deploy_gating (env : Env) :
    actionInvoked ActionKind.prodDeployApply (run_all env).1.trace =
      (tests_pass env && approval_gate_passes env && pr_sync_succeeds env) ∧
    ((run_all env).2 = none →
      (tests_pass env && approval_gate_passes env && pr_sync_succeeds env) = false →
      finalStatus prodCheckName (run_all env).1.trace = some GithubCommitStatus.completed ∧
      finalConclusion prodCheckName (run_all env).1.trace =
        some GithubCommitConclusion.skipped ∧
      actionInvoked ActionKind.prodDeployApply (run_all env).1.trace = false) := by
  obtain ⟨hskel, hexn⟩ := run_all_gen_characterization
    (do_required_approval_check env.users) (has_required_approval env.users env.reviews) env
  rw [run_all_eq_gen env]
  simp only [actionInvoked_skel, finalStatus_skel, finalConclusion_skel, hskel, hexn,
    tests_pass, approval_gate_passes, pr_sync_succeeds, approval_aborts]
  cases hdo : do_required_approval_check env.users <;>
    cases hhas : has_required_approval env.users env.reviews <;>
      cases htr : env.testsRaise <;>
        cases har : env.approvalRaises <;>
          rcases hpr : env.prEnvOutcome with _ | (_ | _) <;>
            rcases hdep : env.deployOutcome with _ | (_ | _) <;>
              decide

/-- Witness for C2 amended: a completed run whose tests failed marks the
prod check Skipped without invoking the deploy collaborator. -/
theorem run_all_deploy_gating_witness :
    finalStatus prodCheckName (run_all envTestsFailOnly).1.trace =
        some GithubCommitStatus.completed ∧
      finalConclusion prodCheckName (run_all envTestsFailOnly).1.trace =
        some GithubCommitConclusion.skipped ∧
      actionInvoked ActionKind.prodDeployApply (run_all envTestsFailOnly).1.trace =
        false := by
  exact (run_all_deploy_gating envTestsFailOnly).2 (by decide) (by decide)

/-- C5 amended: exceptions in the Tests stage are caught and reported as
Failure without aborting the run; a PlanError in the PR environment sync
is caught and reported as ActionRequired; but any other collaborator
exception (from the approval review fetch, or a non-PlanError from the
sync) propagates immediately with no best-effort reporting: the failing
stage's check is left InProgress and downstream checks are left Queued,
not marked Skipped. -/
theorem run_all_fatal_error_behavior (env : Env) :
    (env.approvalRaises = false → env.prEnvOutcome ≠ some PyExn.otherError →
      env.deployOutcome ≠ some PyExn.otherError → (run_all env).2 = none) ∧
    (do_required_approval_check env.users = true → env.approvalRaises = true →
      (run_all env).2 = some PyExn.otherError ∧
      finalStatus approvalCheckName (run_all env).1.trace =
        some GithubCommitStatus.in_progress ∧
      finalStatus prEnvCheckName (run_all env).1.trace = some GithubCommitStatus.queued ∧
      finalStatus prodCheckName (run_all env).1.trace = some GithubCommitStatus.queued) ∧
    (¬(do_required_approval_check env.users = true ∧ env.approvalRaises = true) →
      env.prEnvOutcome = some PyExn.otherError →
      (run_all env).2 = some PyExn.otherError ∧
      finalStatus prEnvCheckName (run_all env).1.trace =
        some GithubCommitStatus.in_progress ∧
      finalStatus prodCheckName (run_all env).1.trace = some GithubCommitStatus.queued) := by
  obtain ⟨hskel, hexn⟩ := run_all_gen_characterization
    (do_required_approval_check env.users) (has_required_approval env.users env.reviews) env
  rw [run_all_eq_gen env]
  simp only [finalStatus_skel, hskel, hexn]
  cases hdo : do_required_approval_check env.users <;>
    cases hhas : has_required_approval env.users env.reviews <;>
      cases htr : env.testsRaise <;>
        cases har : env.approvalRaises <;>
          rcases hpr : env.prEnvOutcome with _ | (_ | _) <;>
            rcases hdep : env.deployOutcome with _ | (_ | _) <;>
              exact ⟨by decide, by decide, by decide⟩

/-- Witness for C5 amended: a non-PlanError from the PR environment sync
propagates, leaving the sync check InProgress and the prod check Queued. -/
theorem run_all_fatal_error_behavior_witness :
    (run_all envPrEnvFatal).2 = some PyExn.otherError ∧
      finalStatus prEnvCheckName (run_all envPrEnvFatal).1.trace =
        some GithubCommitStatus.in_progress := by
  obtain ⟨h1, h2, _⟩ := (run_all_fatal_error_behavior envPrEnvFatal).2.2 (by decide) rfl
  exact ⟨h1, h2⟩

/-- Whether some uncaught exception escapes the run. -/
def run_aborts (env : Env) : Bool :=
  approval_aborts env ||
    (!approval_aborts env && (env.prEnvOutcome == some PyExn.otherError)) ||
    (tests_pass env && approval_gate_passes env && pr_sync_succeeds env &&
      (env.deployOutcome == some PyExn.otherError))

/-- C7 amended: the process exit code of run-all is non-zero iff an
uncaught exception escapes the run; a run that completes all stages
exits 0 even when the run-level conclusion is not overall success
(stage failures are recorded as conclusions but the command functions
discard the stage results). The run-tests subcommand always exits 0. -/
def exit_code_of : Option PyExn → Nat
  | some _ => 1
  | none => 0

lemma run_all_exit_code_eq (env : Env) :
    run_all_exit_code env = exit_code_of (run_all env).2 := by
  cases h : (run_all env).2 <;> simp [run_all_exit_code, exit_code_of, h]

theorem run_all_exit_code_semantics (env : Env) :
    run_all_exit_code env = cond (run_aborts env) 1 0 ∧
    ((run_all env).2 = none → run_all_exit_code env = 0) ∧
    (run_aborts env = false → env.testsRaise = true →
      run_all_exit_code env = 0 ∧
      overallSuccessB env.users (run_all env).1.trace = false) ∧
    run_tests_command_exit_code env = 0 := by
  obtain ⟨hskel, hexn⟩ := run_all_gen_characterization
    (do_required_approval_check env.users) (has_required_approval env.users env.reviews) env
  simp only [run_all_exit_code_eq, run_tests_command_exit_code, overallSuccessB]
  rw [run_all_eq_gen env]
  simp only [finalConclusion_skel, hskel, hexn, run_aborts, approval_aborts, tests_pass,
    approval_gate_passes, pr_sync_succeeds]
  cases hdo : do_required_approval_check env.users <;>
    cases hhas : has_required_approval env.users env.reviews <;>
      cases htr : env.testsRaise <;>
        cases har : env.approvalRaises <;>
          rcases hpr : env.prEnvOutcome with _ | (_ | _) <;>
            rcases hdep : env.deployOutcome with _ | (_ | _) <;>
              exact ⟨by decide, by decide, by decide, by decide⟩

/-- Witness for C7 amended: a completed run with failed tests exits 0
while its run-level conclusion is not overall success. -/
theorem run_all_exit_code_semantics_witness :
    run_all_exit_code envTestsFailOnly = 0 ∧
      overallSuccessB envTestsFailOnly.users (run_all envTestsFailOnly).1.trace = false :=
  (run_all_exit_code_semantics envTestsFailOnly).2.2.1 (by decide) rfl

/-- C8 amended: the Tests, PrEnvironmentSync and ProdDeploy checks are
queued before any collaborator action starts; the RequiredApproval
check, when it participates, is queued before its own collaborator fetch
but only after the Tests collaborator action has already run. -/
theorem run_all_queueing_order (env : Env) :
    precedesAllB (isQueuedUpdateFor testCheckName) isAnyAction
      (run_all env).1.trace = true ∧
    precedesAllB (isQueuedUpdateFor prEnvCheckName) isAnyAction
      (run_all env).1.trace = true ∧
    precedesAllB (isQueuedUpdateFor prodCheckName) isAnyAction
      (run_all env).1.trace = true ∧
    precedesAllB (isQueuedUpdateFor approvalCheckName) (isActionOf ActionKind.approvalFetch)
      (run_all env).1.trace = true ∧
    precedesAllB (isActionOf ActionKind.runTestsAction)
      (isQueuedUpdateFor approvalCheckName) (run_all env).1.trace = true := by
  obtain ⟨hskel, hexn⟩ := run_all_gen_characterization
    (do_required_approval_check env.users) (has_required_approval env.users env.reviews) env
  rw [run_all_eq_gen env]
  rw [precedesAllB_skel (isQueuedUpdateFor testCheckName) isAnyAction
      (skIsQueuedUpdateFor testCheckName) skIsAnyAction
      (isQueuedUpdateFor_skel testCheckName) isAnyAction_skel,
    precedesAllB_skel (isQueuedUpdateFor prEnvCheckName) isAnyAction
      (skIsQueuedUpdateFor prEnvCheckName) skIsAnyAction
      (isQueuedUpdateFor_skel prEnvCheckName) isAnyAction_skel,
    precedesAllB_skel (isQueuedUpdateFor prodCheckName) isAnyAction
      (skIsQueuedUpdateFor prodCheckName) skIsAnyAction
      (isQueuedUpdateFor_skel prodCheckName) isAnyAction_skel,
    precedesAllB_skel (isQueuedUpdateFor approvalCheckName)
      (isActionOf ActionKind.approvalFetch) (skIsQueuedUpdateFor approvalCheckName)
      (skIsActionOf ActionKind.approvalFetch) (isQueuedUpdateFor_skel approvalCheckName)
      (isActionOf_skel ActionKind.approvalFetch),
    precedesAllB_skel (isActionOf ActionKind.runTestsAction)
      (isQueuedUpdateFor approvalCheckName) (skIsActionOf ActionKind.runTestsAction)
      (skIsQueuedUpdateFor approvalCheckName) (isActionOf_skel ActionKind.runTestsAction)
      (isQueuedUpdateFor_skel approvalCheckName)]
  simp only [hskel]
  cases hdo : do_required_approval_check env.users <;>
    cases hhas : has_required_approval env.users env.reviews <;>
      cases htr : env.testsRaise <;>
        cases har : env.approvalRaises <;>
          rcases hpr : env.prEnvOutcome with _ | (_ | _) <;>
            rcases hdep : env.deployOutcome with _ | (_ | _) <;>
              exact ⟨by decide, by decide, by decide, by decide, by decide⟩
